import Mathlib

/-!
Shallow embedding of the per-stream JetStream ingest engine from
`server/stream.go` (moxeed/nats-server): the deduplication window
(`storeMsgId`, `checkMsgId`, `purgeMsgIds`, `rebuildDedupe`), the ingest
pipeline (`processJetStreamMsg`), the source-delivery tracker
(`processInboundSourceMsg`), and the file-storage block-size auto-tuner
(`autoTuneFileStorageBlockSize`).  Machine integers are modelled as
`Nat`/`Int`; sequences are `uint64` values that stay far from overflow on
every input considered here, except where noted with an explicit `% 2^64`.
The storage engine itself is not part of the repository source, so it is
modelled from the spec's store-adapter contract (§4.3/§6).
-/

namespace NatsStream

/-! ## Dedup entries (struct `ddentry` in stream.go) -/

/-- Mirror of Go's `ddentry { id string; seq uint64; ts int64 }`. -/
structure Ddentry where
  id : String
  seq : Nat
  ts : Int
deriving Repr, DecidableEq

/-- Go-map lookup `mset.ddmap[id]` over an entry list keyed by `id`. -/
def ddLookup (m : List Ddentry) (id : String) : Option Ddentry :=
  m.find? (fun d => d.id = id)

/-- Go-map assignment `ddmap[id] = dde` (overwrite semantics). -/
def ddInsert (m : List Ddentry) (d : Ddentry) : List Ddentry :=
  d :: m.filter (fun e => e.id ≠ d.id)

/-- Go-map `delete(ddmap, id)`. -/
def ddErase (m : List Ddentry) (id : String) : List Ddentry :=
  m.filter (fun e => e.id ≠ id)

/-! ## Store model

The storage engine lives outside this repository (only `StreamStore`
calls appear in `stream.go`).  Modelled from the spec: store-adapter
contract of §4.3 — `store_msg` assigns the next sequence, `store_raw_msg`
persists at a caller-assigned sequence, `skip_msg` advances the sequence
without a body, `compact(up_to)` drops everything below `up_to`,
`remove_msg` deletes one sequence, `state()` exposes
`first_seq`/`last_seq`/message count, and `seq_from_time` returns the
earliest sequence with timestamp at or after the given time (0 if none).
A `failMsg` field injects the append-failure behaviour the error paths
of `processJetStreamMsg` react to. -/

/-- A stored message (subject, the `Nats-Msg-Id` header value with `""`
meaning absent, assigned sequence, timestamp). -/
structure StoredMsg where
  subj : String
  hdrMsgId : String
  seq : Nat
  ts : Int
deriving Repr, DecidableEq

/-- Modelled from the spec: the store adapter state (§4.3). `failMsg`
injects an append error with the given text, as stores may fail. -/
structure Store where
  firstSeq : Nat
  lastSeq : Nat
  msgs : List StoredMsg
  failMsg : Option String
deriving Repr, DecidableEq

/-- Modelled from the spec: `store_msg` assigns `last_seq + 1`. -/
def Store.storeMsg (st : Store) (subj msgId : String) (ts : Int) :
    Except String (Store × Nat) :=
  match st.failMsg with
  | some e => .error e
  | none =>
      let seq := st.lastSeq + 1
      .ok ({ st with lastSeq := seq, msgs := st.msgs ++ [⟨subj, msgId, seq, ts⟩] }, seq)

/-- Modelled from the spec: `store_raw_msg` persists at a caller-assigned
sequence and timestamp. -/
def Store.storeRawMsg (st : Store) (subj msgId : String) (seq : Nat) (ts : Int) :
    Except String Store :=
  match st.failMsg with
  | some e => .error e
  | none => .ok { st with lastSeq := seq, msgs := st.msgs ++ [⟨subj, msgId, seq, ts⟩] }

/-- Modelled from the spec: `skip_msg` advances the sequence without
storing a body and returns the new sequence. -/
def Store.skipMsg (st : Store) : Store × Nat :=
  ({ st with lastSeq := st.lastSeq + 1 }, st.lastSeq + 1)

/-- Modelled from the spec: `compact(up_to)` removes all messages below
`up_to`; an empty store compacted to `n` has its next sequence at `n`. -/
def Store.compact (st : Store) (upTo : Nat) : Store :=
  { st with firstSeq := upTo, lastSeq := max st.lastSeq (upTo - 1),
            msgs := st.msgs.filter (fun m => upTo ≤ m.seq) }

/-- Modelled from the spec: `remove_msg(seq)` deletes that sequence. -/
def Store.removeMsg (st : Store) (seq : Nat) : Store :=
  { st with msgs := st.msgs.filter (fun m => m.seq ≠ seq) }

/-- Modelled from the spec: `load_msg(seq)`. -/
def Store.loadMsg (st : Store) (seq : Nat) : Option StoredMsg :=
  st.msgs.find? (fun m => m.seq = seq)

/-- Modelled from the spec: `seq_from_time(t)` — earliest sequence whose
timestamp is ≥ `t`, `0` if none (messages are kept in sequence order). -/
def Store.getSeqFromTime (st : Store) (t : Int) : Nat :=
  match st.msgs.find? (fun m => t ≤ m.ts) with
  | some m => m.seq
  | none => 0

/-! ## Stream configuration and state (struct `stream` in stream.go) -/

inductive RetentionPolicy where
  | limits
  | interest
  | workQueue
deriving Repr, DecidableEq

/-- The `StreamConfig` fields `processJetStreamMsg` and the dedup
machinery read: `Name`, `NoAck`, `MaxMsgSize` (`int32`, negative means
unlimited), `Retention`, `Duplicates` (window in nanoseconds) and
whether `Mirror != nil`. -/
structure StreamCfg where
  name : String
  noAck : Bool
  maxMsgSize : Int
  retention : RetentionPolicy
  duplicates : Int
  mirror : Bool
deriving Repr, DecidableEq

/-- A consumer as seen by the ingest path: its `FilterSubject` (`""` when
unfiltered) and whether it is currently a leader. -/
structure ConsumerC where
  filterSubject : String
  isLeader : Bool
deriving Repr, DecidableEq

/-- The mutable `stream` fields touched by the embedded operations.
`clientOpen` stands for `mset.client != nil`, `sendqOpen` for
`mset.sendq != nil`, `isLeader` for `mset.isLeader()`, and `ddtmr` is
`some d` when the dedup timer is armed to fire in `d` nanoseconds. -/
structure StreamState where
  clientOpen : Bool
  sendqOpen : Bool
  isLeader : Bool
  lseq : Nat
  lmsgId : String
  clfs : Nat
  cfg : StreamCfg
  consumers : List ConsumerC
  numFilter : Nat
  store : Store
  ddmap : List Ddentry
  ddarr : List Ddentry
  ddcap : Nat
  ddindex : Nat
  ddtmr : Option Int
deriving Repr, DecidableEq

/-! ## Dedup operations -/

/-- `checkMsgId` (stream.go): `nil` for an empty id or absent map, else
the map lookup. -/
def checkMsgId (m : List Ddentry) (id : String) : Option Ddentry :=
  if id = "" then none else ddLookup m id

/-- `storeMsgId` (stream.go): lazily arm the purge timer, insert into
`ddmap`, append to `ddarr`.  `ddcap` models the Go slice capacity: it
only grows, and is at least the new length. -/
def storeMsgId (s : StreamState) (d : Ddentry) : StreamState :=
  let tmr := match s.ddtmr with
             | some t => some t
             | none => some s.cfg.duplicates
  { s with ddmap := ddInsert s.ddmap d,
           ddarr := s.ddarr ++ [d],
           ddcap := max s.ddcap (s.ddarr.length + 1),
           ddtmr := tmr }

/-- The 50 ms minimum re-fire delay of `purgeMsgIds`, in nanoseconds. -/
def minFire : Int := 50000000

/-- The scan loop of `purgeMsgIds` over `ddarr[ddindex:]`: delete every
leading expired entry from the map; stop at the first live entry,
reporting its relative index and remaining TTL. -/
def ddPurgeScan (now window : Int) :
    List Ddentry → List Ddentry → Nat → List Ddentry × Option (Nat × Int)
  | [], m, _ => (m, none)
  | d :: rest, m, i =>
      if window ≤ now - d.ts then
        ddPurgeScan now window rest (ddErase m d.id) (i + 1)
      else
        (m, some (i, window - (now - d.ts)))

/-- `purgeMsgIds` (stream.go): run the scan; on stopping at a live entry
advance `ddindex`, compact `ddarr` to a fresh vector when the capacity
exceeds three times the live count, and remember the remaining TTL;
re-arm the timer (clamped below by 50 ms) while the map is non-empty,
otherwise cancel it. -/
def purgeMsgIds (now : Int) (s : StreamState) : StreamState :=
  let window := s.cfg.duplicates
  let scan := ddPurgeScan now window (s.ddarr.drop s.ddindex) s.ddmap 0
  let m' := scan.1
  let next :=
    match scan.2 with
    | none => (s.ddarr, s.ddcap, s.ddindex, window)
    | some (i, rem) =>
        let idx1 := s.ddindex + i
        if 3 * (s.ddarr.length - idx1) < s.ddcap then
          let a := s.ddarr.drop idx1
          (a, a.length, 0, rem)
        else
          (s.ddarr, s.ddcap, idx1, rem)
  let tmr : Option Int :=
    if m'.length > 0 then some (if next.2.2.2 < minFire then minFire else next.2.2.2)
    else none
  { s with ddmap := m', ddarr := next.1, ddcap := next.2.1,
           ddindex := next.2.2.1, ddtmr := tmr }

/-- The dedup part of `purge` (stream.go line 865): `mset.ddmap = nil`;
`ddarr`, `ddindex` and the timer are left untouched. -/
def purgeDedup (s : StreamState) : StreamState :=
  { s with ddmap := [] }

/-- One iteration of the `rebuildDedupe` loop at sequence `seq`: load the
message, extract the `Nats-Msg-Id`, re-insert when non-empty, and record
the last message's id into `lmsgId` when `seq` is the store's last. -/
def rebuildStep (st : Store) (lastSeq : Nat) (s : StreamState) (seq : Nat) :
    StreamState :=
  let msgId := match st.loadMsg seq with
               | some m => m.hdrMsgId
               | none => ""
  let ts := match st.loadMsg seq with
            | some m => m.ts
            | none => 0
  let s1 := if msgId ≠ "" then storeMsgId s ⟨msgId, seq, ts⟩ else s
  if seq = lastSeq then { s1 with lmsgId := msgId } else s1

/-- `rebuildDedupe` (stream.go): set `lseq` from the store, find the
first sequence inside the window via `seq_from_time`, and re-insert every
message id from there through the store's last sequence. -/
def rebuildDedupe (now : Int) (s : StreamState) : StreamState :=
  let s0 := { s with lseq := s.store.lastSeq }
  let sseq := s.store.getSeqFromTime (now - s.cfg.duplicates)
  if sseq = 0 then s0
  else (List.range' sseq (s.store.lastSeq + 1 - sseq)).foldl
         (rebuildStep s.store s.store.lastSeq) s0

/-! ## Ingest pipeline (`processJetStreamMsg`) -/

/-- The message headers the ingest path reads, after the `ClientInfoHdr`
strip.  `hlen` is the header byte length used by the size check;
`msgId` / `expStream` / `expLastMsgId` are `""` when absent (matching
`getMsgId` / `getExpectedStream` / `getExpectedLastMsgId`, which return
the empty string for a missing header); `expLastSeq` is `none` when the
`Nats-Expected-Last-Sequence` header is absent and `some k` when it
parses to `k`. -/
structure Hdr where
  hlen : Nat
  msgId : String
  expStream : String
  expLastSeq : Option Nat
  expLastMsgId : String
deriving Repr, DecidableEq

/-- `getExpectedLastSeq` (stream.go): `0` when the header is absent,
otherwise the parsed value — so a header present with value `0` is
indistinguishable from an absent header. -/
def getExpectedLastSeq (h : Option Nat) : Nat := h.getD 0

/-- External inputs of one `processJetStreamMsg` call: the broker's
`subjectIsSubsetMatch` (subject matching lives outside stream.go), the
account-quota answer `jsa.limitsExceeded(stype)`, and the wall clock
`time.Now().UnixNano()`. -/
structure Env where
  subjectMatch : String → String → Bool
  limitsExceeded : Bool
  now : Int

/-- The publish-ack payloads built by `processJetStreamMsg`: the
pub-ack template plus sequence, the duplicate form, or an error body
with code and description. -/
inductive PubResponse where
  | ackSeq (stream : String) (seq : Nat)
  | ackDup (stream : String) (seq : Nat)
  | err (stream : String) (code : Nat) (descr : String)
deriving Repr, DecidableEq

/-- The `error` return value of `processJetStreamMsg` (`nil` is `ok`). -/
inductive PErr where
  | ok
  | lastSeqMismatch
  | msgIdDuplicate
  | expectedStreamMismatch
  | lastSeqHdrMismatch (want got : Nat)
  | lastMsgIdMismatch (want got : String)
  | maxPayload
  | storeErr (e : String)
deriving Repr, DecidableEq

/-- Result of one `processJetStreamMsg` call: the new stream state, the
returned error, the responses placed on the send queue, the sequence of
a message that was durably recorded (skip or retained append), and
whether the consumer fan-out loop ran. -/
structure PResult where
  st : StreamState
  ret : PErr
  resp : List PubResponse
  stored : Option Nat
  fanout : Bool
deriving Repr, DecidableEq

/-- The `noInterest` computation (stream.go lines 1814-1830): interest
retention with no consumers, or every filtered consumer fails to match
while `numFilter > 0`. -/
def noInterestFor (env : Env) (s : StreamState) (subject : String) : Bool :=
  if s.cfg.retention = .interest then
    if s.consumers.length = 0 then true
    else if 0 < s.numFilter then
      !(s.consumers.any fun o =>
        o.filterSubject ≠ "" && env.subjectMatch subject o.filterSubject)
    else false
  else false

/-- The per-message header checks of `processJetStreamMsg` (run only
when `len(hdr) > 0`): duplicate id, expected stream, expected last
sequence, expected last message id.  `some r` is the short-circuit
rejection, `none` lets the message continue. -/
def hdrGate (s : StreamState) (reply : String) (hdr : Option Hdr) : Option PResult :=
  let name := s.cfg.name
  let canRespond := !s.cfg.noAck && reply ≠ "" && s.isLeader
  match hdr with
  | none => none
  | some h =>
      match checkMsgId s.ddmap h.msgId with
      | some dde =>
          some ⟨{ s with clfs := s.clfs + 1 }, .msgIdDuplicate,
                if canRespond then [.ackDup name dde.seq] else [], none, false⟩
      | none =>
          if h.expStream ≠ "" && h.expStream ≠ name then
            some ⟨{ s with clfs := s.clfs + 1 }, .expectedStreamMismatch,
                  if canRespond then
                    [.err name 400 "expected stream does not match"] else [],
                  none, false⟩
          else if 0 < getExpectedLastSeq h.expLastSeq &&
                  getExpectedLastSeq h.expLastSeq ≠ s.lseq then
            some ⟨{ s with clfs := s.clfs + 1 },
                  .lastSeqHdrMismatch (getExpectedLastSeq h.expLastSeq) s.lseq,
                  if canRespond then
                    [.err name 400 ("wrong last sequence: " ++ toString s.lseq)]
                  else [], none, false⟩
          else if h.expLastMsgId ≠ "" && h.expLastMsgId ≠ s.lmsgId then
            some ⟨{ s with clfs := s.clfs + 1 },
                  .lastMsgIdMismatch h.expLastMsgId s.lmsgId,
                  if canRespond then
                    [.err name 400 ("wrong last msg ID: " ++ s.lmsgId)]
                  else [], none, false⟩
          else none

/-- The tail of `processJetStreamMsg` once the header checks have
passed: size cap, interest-retention skip, append with rollback on
store error, account-limit enforcement, dedup recording, response and
fan-out decision.  `msgId` and `hlen` are the message id and header
length extracted from the (possibly absent) headers. -/
def processAccept (env : Env) (s : StreamState) (subject reply msgId : String)
    (hlen msgLen : Nat) (ts0 : Int) : PResult :=
  let name := s.cfg.name
  let canRespond := !s.cfg.noAck && reply ≠ "" && s.isLeader
  let numConsumers := s.consumers.length
  -- max msg size check
  if 0 ≤ s.cfg.maxMsgSize && s.cfg.maxMsgSize < (hlen : Int) + (msgLen : Int) then
    ⟨{ s with clfs := s.clfs + 1 }, .maxPayload,
     if canRespond then
       [.err name 400 "message size exceeds maximum allowed"] else [],
     none, false⟩
  else
    let ts := if ts0 = 0 then env.now else ts0
    if noInterestFor env s subject then
      -- interest-retention skip: SkipMsg, ack the new lseq, record the
      -- dedup entry with the local variable `seq`, which is still 0 here
      let sk := s.store.skipMsg
      let s1 := { s with store := sk.1, lseq := sk.2, lmsgId := msgId }
      let s2 := if msgId ≠ "" then storeMsgId s1 ⟨msgId, 0, ts⟩ else s1
      ⟨s2, .ok,
       if canRespond then [.ackSeq name s1.lseq] else [], some sk.2, false⟩
    else
      let olseq := s.lseq
      let olmsgId := s.lmsgId
      let s1 := { s with lmsgId := msgId, lseq := s.lseq + 1 }
      let app : Except String (Store × Nat) :=
        if ts = 0 then s1.store.storeMsg subject msgId ts
        else (s1.store.storeRawMsg subject msgId (olseq + 1) ts).map
               (fun st => (st, olseq + 1))
      match app with
      | .error e =>
          ⟨{ s1 with lseq := olseq, lmsgId := olmsgId }, .storeErr e,
           if canRespond then [.err name 503 e] else [], none, false⟩
      | .ok (st2, seq) =>
          let s2 := { s1 with store := st2 }
          if env.limitsExceeded then
            ⟨{ s2 with store := s2.store.removeMsg seq }, .ok,
             if canRespond then
               [.err name 400 "resource limits exceeded for account"] else [],
             none, false⟩
          else
            let s3 := if msgId ≠ "" then storeMsgId s2 ⟨msgId, seq, ts⟩ else s2
            ⟨s3, .ok,
             if canRespond then [.ackSeq name seq] else [], some seq,
             decide (0 < seq) && decide (0 < numConsumers)⟩

/-- The body of `processJetStreamMsg` after the proposed-sequence check:
the header gate followed by the accept path. -/
def processBody (env : Env) (s : StreamState) (subject reply : String)
    (hdr : Option Hdr) (msgLen : Nat) (ts0 : Int) : PResult :=
  match hdrGate s reply hdr with
  | some r => r
  | none =>
      processAccept env s subject reply
        (match hdr with | some h => h.msgId | none => "")
        (match hdr with | some h => h.hlen | none => 0) msgLen ts0

/-- `processJetStreamMsg` (stream.go): bail out when the client is gone;
check a non-zero proposed sequence against `lseq + clfs`, adjusting a
brand-new mirror with an empty store by compacting to the proposed
sequence plus one, otherwise answering 503 and `errLastSeqMismatch`;
then run the ingest body. -/
def processJetStreamMsg (env : Env) (s : StreamState) (subject reply : String)
    (hdr : Option Hdr) (msgLen : Nat) (lseqArg : Nat) (ts0 : Int) : PResult :=
  if !s.clientOpen then ⟨s, .ok, [], none, false⟩
  else if 0 < lseqArg && lseqArg ≠ s.lseq + s.clfs then
    if s.cfg.mirror && s.store.firstSeq = 0 then
      processBody env
        { s with store := s.store.compact (lseqArg + 1), lseq := lseqArg }
        subject reply hdr msgLen ts0
    else
      let canRespond := !s.cfg.noAck && reply ≠ "" && s.isLeader
      ⟨s, .lastSeqMismatch,
       if canRespond && s.sendqOpen then
         [.err s.cfg.name 503 "expected stream sequence does not match"] else [],
       none, false⟩
  else processBody env s subject reply hdr msgLen ts0

/-! ## Source deliveries (`processInboundSourceMsg`) -/

/-- The per-upstream `sourceInfo` fields the delivery tracker mutates. -/
structure SourceInfo where
  name : String
  sseq : Nat
  dseq : Nat
  lag : Nat
deriving Repr, DecidableEq

/-- What one source delivery leads to: dropped on the floor, ingested
into the stream, or a `setSourceConsumer(name, seq)` reinstall. -/
inductive SrcAction where
  | drop
  | ingest
  | reset (name : String) (seq : Nat)
deriving Repr, DecidableEq

/-- `processInboundSourceMsg` (stream.go lines 1240-1265) restricted to
the tracking decision: reject a missing/stale subscription or a
redelivery (`dc > 1`); on the expected `dseq` advance `dseq` and `sseq`
(initializing `sseq` from the upstream on the first delivery) and ingest;
on any gap call `setSourceConsumer(si.name, si.sseq+1)`, which zeroes
`si.sseq` and `si.dseq`. -/
def processInboundSourceMsg (siPresent subMatches : Bool) (si : SourceInfo)
    (sseq dseq dc pending : Nat) : SourceInfo × SrcAction :=
  if !siPresent || !subMatches || 1 < dc then (si, .drop)
  else if dseq = si.dseq + 1 then
    let si1 := { si with dseq := si.dseq + 1,
                         sseq := if dseq = 1 then sseq else si.sseq + 1 }
    ({ si1 with lag := pending }, .ingest)
  else
    ({ si with sseq := 0, dseq := 0 }, .reset si.name (si.sseq + 1))

/-! ## File-storage block-size auto-tuning -/

/-- Rounding-up to the nearest multiple of 100 as done in
`autoTuneFileStorageBlockSize`. -/
def roundUp100 (b : Nat) : Nat :=
  if b % 100 ≠ 0 then b + (100 - b % 100) else b

/-- `autoTuneFileStorageBlockSize` (stream.go): `MaxBytes` takes
precedence; else `maxMsgSize() * MaxMsgs` (uint64 product, hence the
`% 2^64`); else leave the block size to the filestore (`none`).  The
chosen total is divided by 4 plus one, rounded up to a 100-byte
multiple, and clamped to `[minBlk, maxBlk]` (the constants
`FileStoreMinBlkSize` / `FileStoreMaxBlkSize` live outside this file's
source, so they are parameters here, and `msgSizeEst` stands for the
externally computed `mset.maxMsgSize()` estimate). -/
def autoTuneFileStorageBlockSize (maxBytes maxMsgs : Int) (msgSizeEst : Nat)
    (minBlk maxBlk : Nat) : Option Nat :=
  let tot? : Option Nat :=
    if 0 < maxBytes then some maxBytes.toNat
    else if 0 < maxMsgs then some ((msgSizeEst * maxMsgs.toNat) % 2 ^ 64)
    else none
  match tot? with
  | none => none
  | some tot =>
      let b1 := tot / 4 + 1
      let b2 := roundUp100 b1
      let b3 := if b2 < minBlk then minBlk else b2
      let b4 := if maxBlk < b3 then maxBlk else b3
      some b4

/-- The block-size computation as the claim words it: the total estimate
is the smaller of `max_bytes` and `max_msg_size_estimate * max_msgs`
(when both are set), then the same divide, round-up and clamp. -/
def claimBlockSize (maxBytes maxMsgs : Int) (msgSizeEst : Nat)
    (minBlk maxBlk : Nat) : Option Nat :=
  let tot? : Option Nat :=
    if 0 < maxBytes && 0 < maxMsgs then
      some (min maxBytes.toNat ((msgSizeEst * maxMsgs.toNat) % 2 ^ 64))
    else if 0 < maxBytes then some maxBytes.toNat
    else if 0 < maxMsgs then some ((msgSizeEst * maxMsgs.toNat) % 2 ^ 64)
    else none
  match tot? with
  | none => none
  | some tot =>
      let b1 := tot / 4 + 1
      let b2 := roundUp100 b1
      let b3 := if b2 < minBlk then minBlk else b2
      let b4 := if maxBlk < b3 then maxBlk else b3
      some b4

/-! ## Concrete example inputs used by evidence and witness theorems -/

/-- An environment with no subject matches, quotas fine, clock at 1000 ns. -/
def exEnv : Env := ⟨fun _ _ => false, false, 1000⟩

/-- An interest-retention stream config with a 100 ns dedup window. -/
def exInterestCfg : StreamCfg := ⟨"S", false, -1, .interest, 100, false⟩

/-- A limits-retention stream config. -/
def exLimitsCfg : StreamCfg := ⟨"S", false, -1, .limits, 100, false⟩

/-- A brand-new empty store. -/
def exEmptyStore : Store := ⟨0, 0, [], none⟩

/-- A fresh leader stream with interest retention and no consumers. -/
def exInterestState : StreamState :=
  ⟨true, true, true, 0, "", 0, exInterestCfg, [], 0, exEmptyStore, [], [], 0, 0, none⟩

/-- Headers carrying only `Nats-Msg-Id: A`. -/
def exHdrA : Hdr := ⟨10, "A", "", none, ""⟩

/-- A limits-retention leader stream that has already appended one
message (`lseq = 1`, the store's last sequence is 1). -/
def exSeqOneState : StreamState :=
  ⟨true, true, true, 1, "", 0, exLimitsCfg, [], 0,
   ⟨1, 1, [⟨"foo", "", 1, 500⟩], none⟩, [], [], 0, 0, none⟩

/-- A dedup state holding a single entry whose timestamp lies a full
window in the past, with the purge timer armed. -/
def exStaleDedupState : StreamState :=
  ⟨true, true, true, 0, "", 0, exLimitsCfg, [], 0, exEmptyStore,
   [⟨"a", 1, 0⟩], [⟨"a", 1, 0⟩], 1, 0, some 100⟩

/-! ## C1 — duplicate handling and the skip-path dedup entry -/

/-- C1 evidence: on an interest-retention stream with no consumers, the
first publish of message-id `A` is skipped with ack sequence 1, but the
recorded dedup entry carries sequence 0 (the local `seq` variable, still
unset on the skip path) instead of the skipped sequence; the duplicate
submission within the window performs no store write and leaves `lseq`
alone, yet replies `duplicate=true` with sequence 0, not the sequence 1
acknowledged for the first submission. -/
theorem c1_skip_path_dedup_entry_is_zero :
    (processJetStreamMsg exEnv exInterestState "foo" "rep" (some exHdrA) 5 0 0).resp
        = [.ackSeq "S" 1] ∧
    (processJetStreamMsg exEnv exInterestState "foo" "rep" (some exHdrA) 5 0 0).st.lseq
        = 1 ∧
    (processJetStreamMsg exEnv exInterestState "foo" "rep" (some exHdrA) 5 0 0).st.ddmap
        = [⟨"A", 0, 1000⟩] ∧
    (processJetStreamMsg exEnv
        (processJetStreamMsg exEnv exInterestState "foo" "rep" (some exHdrA) 5 0 0).st
        "foo" "rep" (some exHdrA) 5 0 0).resp = [.ackDup "S" 0] ∧
    (processJetStreamMsg exEnv
        (processJetStreamMsg exEnv exInterestState "foo" "rep" (some exHdrA) 5 0 0).st
        "foo" "rep" (some exHdrA) 5 0 0).st.lseq = 1 ∧
    (processJetStreamMsg exEnv
        (processJetStreamMsg exEnv exInterestState "foo" "rep" (some exHdrA) 5 0 0).st
        "foo" "rep" (some exHdrA) 5 0 0).st.store
      = (processJetStreamMsg exEnv exInterestState "foo" "rep" (some exHdrA) 5 0 0).st.store ∧
    (processJetStreamMsg exEnv
        (processJetStreamMsg exEnv exInterestState "foo" "rep" (some exHdrA) 5 0 0).st
        "foo" "rep" (some exHdrA) 5 0 0).resp ≠ [.ackDup "S" 1] := by
  decide

/-! ## C3 — expected-last-sequence header, the k = 0 case -/

/-- C3 counterexample: with `lseq = 1` a publish carrying the header
`Nats-Expected-Last-Sequence: 0` is accepted and stored at sequence 2,
although `lseq ≠ 0` — refuting "the publish is accepted iff `lseq == k`
... for every value of `k` including `k = 0`": a value of 0 is
indistinguishable from an absent header in `getExpectedLastSeq`. -/
theorem c3_zero_header_accepted_counterexample :
    exSeqOneState.lseq ≠ 0 ∧
    (processJetStreamMsg exEnv exSeqOneState "foo" "rep"
        (some ⟨5, "", "", some 0, ""⟩) 5 0 0).ret = .ok ∧
    (processJetStreamMsg exEnv exSeqOneState "foo" "rep"
        (some ⟨5, "", "", some 0, ""⟩) 5 0 0).stored = some 2 := by
  decide

/-! ## C6 — what a purge pass leaves behind -/

/-- C6 counterexample: a purge pass over a fully expired window empties
`ddmap` and cancels the timer, but `ddarr` is left non-empty (the array
is only compacted when the scan stops at a live entry), refuting "leaves
... ddarr empty". -/
theorem c6_quiescent_purge_keeps_ddarr :
    (purgeMsgIds 1000 exStaleDedupState).ddmap = [] ∧
    (purgeMsgIds 1000 exStaleDedupState).ddtmr = none ∧
    (purgeMsgIds 1000 exStaleDedupState).ddarr ≠ [] := by
  decide

/-! ## C8 — source delivery tracking -/

/-- C8: a source delivery with `delivery_count > 1` is dropped with no
state change; a delivery at exactly `si.dseq + 1` advances `dseq`,
advances `sseq` (initialized from the upstream sequence on the very
first delivery), records the pending lag and is ingested; any other
`dseq` triggers `setSourceConsumer(si.name, si.sseq + 1)` (which zeroes
the tracked sequences) and the message is not ingested. -/
theorem c8_source_delivery_tracking (siPresent subMatches : Bool)
    (si : SourceInfo) (sseq dseq dc pending : Nat) :
    (1 < dc →
      processInboundSourceMsg siPresent subMatches si sseq dseq dc pending
        = (si, .drop)) ∧
    (siPresent = true → subMatches = true → dc ≤ 1 → dseq = si.dseq + 1 →
      processInboundSourceMsg siPresent subMatches si sseq dseq dc pending
        = ({ si with dseq := si.dseq + 1,
                     sseq := if dseq = 1 then sseq else si.sseq + 1,
                     lag := pending }, .ingest)) ∧
    (siPresent = true → subMatches = true → dc ≤ 1 → dseq ≠ si.dseq + 1 →
      processInboundSourceMsg siPresent subMatches si sseq dseq dc pending
        = ({ si with sseq := 0, dseq := 0 }, .reset si.name (si.sseq + 1))) := by
  refine ⟨fun hdc => ?_, fun hp hm hdc hd => ?_, fun hp hm hdc hd => ?_⟩ <;>
    simp [processInboundSourceMsg, *]

/-- C8 witness: the in-order case at concrete values — delivery 2 of
upstream sequence 7 against a tracker at `dseq = 1`, `sseq = 7`. -/
theorem c8_source_delivery_tracking_witness :
    processInboundSourceMsg true true ⟨"UP", 7, 1, 0⟩ 8 2 1 3
      = (⟨"UP", 8, 2, 3⟩, .ingest) := by
  have h := (c8_source_delivery_tracking true true ⟨"UP", 7, 1, 0⟩ 8 2 1 3).2.1
    rfl rfl (by decide) (by decide)
  simpa using h

/-! ## C9 — block-size auto-tuning -/

/-- C9 counterexample: with `max_bytes = 1000`, `max_msgs = 10` and a
10-byte message-size estimate, the code tunes the block size from
`max_bytes` alone (yielding 300), not from the smaller quantity
`est * max_msgs = 100` (which would yield 100): `MaxBytes` takes
precedence rather than the minimum being taken. -/
theorem c9_precedence_counterexample :
    autoTuneFileStorageBlockSize 1000 10 10 1 1000000000 = some 300 ∧
    claimBlockSize 1000 10 10 1 1000000000 = some 100 ∧
    autoTuneFileStorageBlockSize 1000 10 10 1 1000000000
      ≠ claimBlockSize 1000 10 10 1 1000000000 := by
  decide

/-- C9 amended: when neither limit is set the tuner defers to the
filestore; otherwise the total estimate is `max_bytes` when positive
(taking precedence), else `est * max_msgs`; the block size is that total
divided by four plus one, rounded up to the next 100-byte multiple
(a multiple of 100 lying in `(tot/4, tot/4 + 100]`), and clamped into
`[minBlk, maxBlk]`. -/
theorem c9_autotune_amended (maxBytes maxMsgs : Int) (est lo hi : Nat) :
    (maxBytes ≤ 0 → maxMsgs ≤ 0 →
      autoTuneFileStorageBlockSize maxBytes maxMsgs est lo hi = none) ∧
    (0 < maxBytes ∨ 0 < maxMsgs →
      autoTuneFileStorageBlockSize maxBytes maxMsgs est lo hi
        = some (min (max (roundUp100
            ((if 0 < maxBytes then maxBytes.toNat
              else (est * maxMsgs.toNat) % 2 ^ 64) / 4 + 1)) lo) hi) ∧
      roundUp100 ((if 0 < maxBytes then maxBytes.toNat
              else (est * maxMsgs.toNat) % 2 ^ 64) / 4 + 1) % 100 = 0 ∧
      (if 0 < maxBytes then maxBytes.toNat
       else (est * maxMsgs.toNat) % 2 ^ 64) / 4
        < roundUp100 ((if 0 < maxBytes then maxBytes.toNat
              else (est * maxMsgs.toNat) % 2 ^ 64) / 4 + 1) ∧
      roundUp100 ((if 0 < maxBytes then maxBytes.toNat
              else (est * maxMsgs.toNat) % 2 ^ 64) / 4 + 1)
        ≤ (if 0 < maxBytes then maxBytes.toNat
           else (est * maxMsgs.toNat) % 2 ^ 64) / 4 + 100) := by
  constructor
  · intro hb hm
    simp only [autoTuneFileStorageBlockSize]
    rw [if_neg (by omega), if_neg (by omega)]
  · intro hset
    have hcase : (0 < maxBytes) ∨ (¬ 0 < maxBytes ∧ 0 < maxMsgs) := by
      rcases hset with h | h
      · exact .inl h
      · by_cases hb : 0 < maxBytes
        · exact .inl hb
        · exact .inr ⟨hb, h⟩
    have main : ∀ tot : Nat,
        (let b1 := tot / 4 + 1
         let b2 := roundUp100 b1
         let b3 := if b2 < lo then lo else b2
         let b4 := if hi < b3 then hi else b3
         some b4) = some (min (max (roundUp100 (tot / 4 + 1)) lo) hi) ∧
        roundUp100 (tot / 4 + 1) % 100 = 0 ∧
        tot / 4 < roundUp100 (tot / 4 + 1) ∧
        roundUp100 (tot / 4 + 1) ≤ tot / 4 + 100 := by
      intro tot
      have h100 : roundUp100 (tot / 4 + 1) % 100 = 0 := by
        simp only [roundUp100]
        split <;> omega
      have hgt : tot / 4 < roundUp100 (tot / 4 + 1) := by
        simp only [roundUp100]
        split <;> omega
      have hle : roundUp100 (tot / 4 + 1) ≤ tot / 4 + 100 := by
        simp only [roundUp100]
        split <;> omega
      refine ⟨?_, h100, hgt, hle⟩
      simp only [Option.some.injEq]
      generalize roundUp100 (tot / 4 + 1) = r
      simp only [Nat.max_def, Nat.min_def]
      split_ifs <;> omega
    rcases hcase with hb | ⟨hb, hm⟩
    · have := main maxBytes.toNat
      simp only [autoTuneFileStorageBlockSize, if_pos hb] at this ⊢
      simpa [hb] using this
    · have := main ((est * maxMsgs.toNat) % 2 ^ 64)
      simp only [autoTuneFileStorageBlockSize, if_neg hb, if_pos hm] at this ⊢
      simpa [hb, hm] using this

/-- C9 witness: the amended theorem at `max_bytes = 1000`,
`max_msgs = 0`: block size `300 = min (max 300 1) 10^9`. -/
theorem c9_autotune_amended_witness :
    autoTuneFileStorageBlockSize 1000 0 10 1 1000000000
      = some (min (max (roundUp100 ((1000 : Int).toNat / 4 + 1)) 1) 1000000000) := by
  have h := (c9_autotune_amended 1000 0 10 1 1000000000).2 (.inl (by decide))
  simpa using h.1

/-! ## C4 — the proposed-sequence check -/

/-- C4: when `processJetStreamMsg` is handed a positive proposed
sequence different from `lseq + clfs`, a mirror stream whose store is
still empty compacts the store to the proposed sequence plus one, jumps
`lseq` to the proposed sequence and proceeds with ingest; any other
stream answers 503 "expected stream sequence does not match", returns
the last-sequence-mismatch error, and its state — `lseq` included — is
left untouched. -/
theorem c4_proposed_seq_check (env : Env) (s : StreamState)
    (subject reply : String) (hdr : Option Hdr) (msgLen lseqArg : Nat) (ts0 : Int)
    (hc : s.clientOpen = true)
    (hpos : 0 < lseqArg) (hne : lseqArg ≠ s.lseq + s.clfs) :
    (s.cfg.mirror = true → s.store.firstSeq = 0 →
      processJetStreamMsg env s subject reply hdr msgLen lseqArg ts0
        = processBody env
            { s with store := s.store.compact (lseqArg + 1), lseq := lseqArg }
            subject reply hdr msgLen ts0) ∧
    (s.cfg.mirror = false ∨ s.store.firstSeq ≠ 0 →
      processJetStreamMsg env s subject reply hdr msgLen lseqArg ts0
        = ⟨s, .lastSeqMismatch,
           if (!s.cfg.noAck && reply ≠ "" && s.isLeader) && s.sendqOpen then
             [.err s.cfg.name 503 "expected stream sequence does not match"]
           else [], none, false⟩) := by
  constructor
  · intro hmir hfs
    simp [processJetStreamMsg, hc, hpos, hne, hmir, hfs]
  · intro hcase
    rcases hcase with hmir | hfs
    · simp [processJetStreamMsg, hc, hpos, hne, hmir]
    · simp [processJetStreamMsg, hc, hpos, hne, hfs]

/-- C4 witness: a non-mirror leader stream at `lseq = 1` receiving
proposed sequence 5 answers the 503 mismatch and keeps its state. -/
theorem c4_proposed_seq_check_witness :
    processJetStreamMsg exEnv exSeqOneState "foo" "rep" none 5 5 0
      = ⟨exSeqOneState, .lastSeqMismatch,
         [.err "S" 503 "expected stream sequence does not match"], none, false⟩ := by
  have h := (c4_proposed_seq_check exEnv exSeqOneState "foo" "rep" none 5 5 0
    rfl (by decide) (by decide)).2 (.inl rfl)
  simpa using h

/-! ## C5 — store-failure rollback -/

/-- All per-message header guards pass for this stream state: no
duplicate id and no mismatch of the expected stream, expected last
sequence, or expected last message id. -/
def PassesHeaderGates (s : StreamState) (hdr : Option Hdr) : Prop :=
  ∀ h, hdr = some h →
    (checkMsgId s.ddmap h.msgId = none) ∧
    (h.expStream = "" ∨ h.expStream = s.cfg.name) ∧
    (getExpectedLastSeq h.expLastSeq = 0 ∨ getExpectedLastSeq h.expLastSeq = s.lseq) ∧
    (h.expLastMsgId = "" ∨ h.expLastMsgId = s.lmsgId)

/-- C5: if the store append fails, `processJetStreamMsg` is atomic on the
in-memory state — the whole stream state (in particular `lseq` and
`lmsgId`, which had been advanced optimistically) is back to its
pre-call value — and the publisher receives a 503 reply whose
description is the store's error text. -/
theorem c5_store_error_rollback (env : Env) (s : StreamState)
    (subject reply : String) (hdr : Option Hdr) (msgLen : Nat) (ts0 : Int)
    (e : String)
    (hc : s.clientOpen = true)
    (hfail : s.store.failMsg = some e)
    (hgates : PassesHeaderGates s hdr)
    (hsz : s.cfg.maxMsgSize < 0)
    (hret : s.cfg.retention ≠ .interest) :
    processJetStreamMsg env s subject reply hdr msgLen 0 ts0
      = ⟨s, .storeErr e,
         if !s.cfg.noAck && reply ≠ "" && s.isLeader then
           [.err s.cfg.name 503 e] else [], none, false⟩ := by
  have hni : noInterestFor env s subject = false := by
    simp [noInterestFor, hret]
  have happ : ∀ (t : Int) (mid : String),
      (if t = 0 then s.store.storeMsg subject mid t
       else (s.store.storeRawMsg subject mid (s.lseq + 1) t).map
              (fun st => (st, s.lseq + 1)))
        = Except.error e := by
    intro t mid
    split <;> simp [Store.storeMsg, Store.storeRawMsg, Except.map, hfail]
  simp only [processJetStreamMsg, hc]
  rw [if_neg (by simp)]
  rw [if_neg (by simp)]
  cases hdr with
  | none =>
      simp only [processBody, hdrGate, processAccept, hni]
      rw [if_neg (by simp; omega)]
      simp only [Bool.false_eq_true, if_false, happ]
  | some h =>
      obtain ⟨hdup, hstream, hseq, hmsgid⟩ := hgates h rfl
      simp only [processBody, hdrGate, hdup]
      rw [if_neg (by rcases hstream with h1 | h1 <;> simp [h1])]
      rw [if_neg (by rcases hseq with h1 | h1 <;> simp [h1])]
      rw [if_neg (by rcases hmsgid with h1 | h1 <;> simp [h1])]
      simp only [processAccept, hni]
      rw [if_neg (by simp; omega)]
      simp only [Bool.false_eq_true, if_false, happ]

/-- C5 witness: a failing store on a fresh limits-retention stream rolls
everything back and reports the error text in a 503. -/
theorem c5_store_error_rollback_witness :
    processJetStreamMsg exEnv
        ⟨true, true, true, 0, "x", 0, exLimitsCfg, [], 0,
         ⟨0, 0, [], some "disk unhappy"⟩, [], [], 0, 0, none⟩
        "foo" "rep" none 5 0 0
      = ⟨⟨true, true, true, 0, "x", 0, exLimitsCfg, [], 0,
          ⟨0, 0, [], some "disk unhappy"⟩, [], [], 0, 0, none⟩,
         .storeErr "disk unhappy", [.err "S" 503 "disk unhappy"], none, false⟩ := by
  have h := c5_store_error_rollback exEnv
    ⟨true, true, true, 0, "x", 0, exLimitsCfg, [], 0,
     ⟨0, 0, [], some "disk unhappy"⟩, [], [], 0, 0, none⟩
    "foo" "rep" none 5 0 "disk unhappy" rfl rfl
    (by intro h hh; cases hh) (by decide) (by decide)
  simpa using h

/-! ## C10 — account-limit enforcement after a successful append -/

/-- C10: when the account storage limits are exceeded after a successful
append, the just-stored message is removed again (the store's message
list is back to its pre-call contents while its last sequence stays
advanced), the publisher gets a 400 "resource limits exceeded for
account", the internal sequence is zeroed so no dedup entry is recorded
for the message's id and no consumer fan-out happens — but, unlike the
store-error path, `lseq` and `lmsgId` keep their advanced values. -/
theorem c10_limits_exceeded_keeps_lseq (env : Env) (s : StreamState)
    (subject reply : String) (h : Hdr) (msgLen : Nat) (ts0 : Int)
    (hc : s.clientOpen = true)
    (hlim : env.limitsExceeded = true)
    (hfail : s.store.failMsg = none)
    (hgates : PassesHeaderGates s (some h))
    (_hid : h.msgId ≠ "")
    (hsz : s.cfg.maxMsgSize < 0)
    (hret : s.cfg.retention ≠ .interest)
    (h1 : s.lseq = s.store.lastSeq)
    (hseqs : ∀ m ∈ s.store.msgs, m.seq ≤ s.store.lastSeq) :
    (processJetStreamMsg env s subject reply (some h) msgLen 0 ts0).ret = .ok ∧
    (processJetStreamMsg env s subject reply (some h) msgLen 0 ts0).stored = none ∧
    (processJetStreamMsg env s subject reply (some h) msgLen 0 ts0).fanout = false ∧
    (processJetStreamMsg env s subject reply (some h) msgLen 0 ts0).resp
      = (if !s.cfg.noAck && reply ≠ "" && s.isLeader then
           [.err s.cfg.name 400 "resource limits exceeded for account"] else []) ∧
    (processJetStreamMsg env s subject reply (some h) msgLen 0 ts0).st.lseq
      = s.lseq + 1 ∧
    (processJetStreamMsg env s subject reply (some h) msgLen 0 ts0).st.lmsgId
      = h.msgId ∧
    (processJetStreamMsg env s subject reply (some h) msgLen 0 ts0).st.ddmap
      = s.ddmap ∧
    (processJetStreamMsg env s subject reply (some h) msgLen 0 ts0).st.ddarr
      = s.ddarr ∧
    (processJetStreamMsg env s subject reply (some h) msgLen 0 ts0).st.store.msgs
      = s.store.msgs ∧
    (processJetStreamMsg env s subject reply (some h) msgLen 0 ts0).st.store.lastSeq
      = s.store.lastSeq + 1 := by
  have hni : noInterestFor env s subject = false := by
    simp [noInterestFor, hret]
  have happ : ∀ t : Int,
      (if t = 0 then s.store.storeMsg subject h.msgId t
       else (s.store.storeRawMsg subject h.msgId (s.lseq + 1) t).map
              (fun st => (st, s.lseq + 1)))
        = Except.ok
            (({ s.store with
                  lastSeq := s.store.lastSeq + 1,
                  msgs := s.store.msgs
                    ++ [(⟨subject, h.msgId, s.store.lastSeq + 1, t⟩ : StoredMsg)] }
                : Store),
              s.store.lastSeq + 1) := by
    intro t
    split <;> simp [Store.storeMsg, Store.storeRawMsg, Except.map, hfail, h1]
  obtain ⟨hdup, hstream, hseq, hmsgid⟩ := hgates h rfl
  simp only [processJetStreamMsg, hc]
  rw [if_neg (by simp)]
  rw [if_neg (by simp)]
  simp only [processBody, hdrGate, hdup]
  rw [if_neg (by rcases hstream with h2 | h2 <;> simp [h2])]
  rw [if_neg (by rcases hseq with h2 | h2 <;> simp [h2])]
  rw [if_neg (by rcases hmsgid with h2 | h2 <;> simp [h2])]
  simp only [processAccept, hni]
  rw [if_neg (by simp; omega)]
  simp only [Bool.false_eq_true, if_false, happ]
  simp [hlim, Store.removeMsg, h1]
  intro m hm
  have h3 := hseqs m hm
  omega

/-- C10 witness: a fresh stream whose account is over its storage quota
removes the appended message, reports 400, keeps `lseq = 1`. -/
theorem c10_limits_exceeded_keeps_lseq_witness :
    (processJetStreamMsg ⟨fun _ _ => false, true, 1000⟩
        ⟨true, true, true, 0, "", 0, exLimitsCfg, [], 0, exEmptyStore,
         [], [], 0, 0, none⟩ "foo" "rep" (some exHdrA) 5 0 0).st.lseq = 0 + 1 ∧
    (processJetStreamMsg ⟨fun _ _ => false, true, 1000⟩
        ⟨true, true, true, 0, "", 0, exLimitsCfg, [], 0, exEmptyStore,
         [], [], 0, 0, none⟩ "foo" "rep" (some exHdrA) 5 0 0).st.ddmap = [] := by
  have h := c10_limits_exceeded_keeps_lseq ⟨fun _ _ => false, true, 1000⟩
    ⟨true, true, true, 0, "", 0, exLimitsCfg, [], 0, exEmptyStore,
     [], [], 0, 0, none⟩ "foo" "rep" exHdrA 5 0 rfl rfl rfl
    (by intro h hh; cases hh; exact ⟨rfl, .inl rfl, .inl rfl, .inl rfl⟩)
    (by decide) (by decide) (by decide) rfl (by intro m hm; cases hm)
  exact ⟨h.2.2.2.2.1, h.2.2.2.2.2.2.1⟩

/-! ## C3 amended — expected-last-sequence for positive k -/

/-- C3 amended: for a header value `k ≥ 1` (and all other guards
passing), the publish is accepted if and only if `lseq = k` at the
moment of the check; on mismatch the state is unchanged except for the
cluster-failed counter and the reply is a 400 whose description is
"wrong last sequence: " followed by the current `lseq`.  A header value
`k = 0` is treated exactly like an absent header (the publish proceeds
regardless of `lseq`). -/
theorem c3_expected_last_seq_gate (env : Env) (s : StreamState)
    (subject reply : String) (h : Hdr) (msgLen : Nat) (ts0 : Int) (k : Nat)
    (hc : s.clientOpen = true)
    (hfail : s.store.failMsg = none)
    (hlim : env.limitsExceeded = false)
    (hdup : checkMsgId s.ddmap h.msgId = none)
    (hstream : h.expStream = "")
    (hk : h.expLastSeq = some k)
    (hkpos : 0 < k)
    (hmsgid : h.expLastMsgId = "")
    (hsz : s.cfg.maxMsgSize < 0)
    (hret : s.cfg.retention ≠ .interest)
    (h1 : s.lseq = s.store.lastSeq) :
    (k = s.lseq →
      (processJetStreamMsg env s subject reply (some h) msgLen 0 ts0).ret = .ok ∧
      (processJetStreamMsg env s subject reply (some h) msgLen 0 ts0).stored
        = some (s.lseq + 1)) ∧
    (k ≠ s.lseq →
      processJetStreamMsg env s subject reply (some h) msgLen 0 ts0
        = ⟨{ s with clfs := s.clfs + 1 }, .lastSeqHdrMismatch k s.lseq,
           if !s.cfg.noAck && reply ≠ "" && s.isLeader then
             [.err s.cfg.name 400 ("wrong last sequence: " ++ toString s.lseq)]
           else [], none, false⟩) := by
  have hni : noInterestFor env s subject = false := by
    simp [noInterestFor, hret]
  have happ : ∀ t : Int,
      (if t = 0 then s.store.storeMsg subject h.msgId t
       else (s.store.storeRawMsg subject h.msgId (s.lseq + 1) t).map
              (fun st => (st, s.lseq + 1)))
        = Except.ok
            (({ s.store with
                  lastSeq := s.store.lastSeq + 1,
                  msgs := s.store.msgs
                    ++ [(⟨subject, h.msgId, s.store.lastSeq + 1, t⟩ : StoredMsg)] }
                : Store),
              s.store.lastSeq + 1) := by
    intro t
    split <;> simp [Store.storeMsg, Store.storeRawMsg, Except.map, hfail, h1]
  constructor
  · intro heq
    simp only [processJetStreamMsg, hc]
    rw [if_neg (by simp)]
    rw [if_neg (by simp)]
    simp only [processBody, hdrGate, hdup]
    rw [if_neg (by simp [hstream])]
    rw [if_neg (by simp [getExpectedLastSeq, hk, heq])]
    rw [if_neg (by simp [hmsgid])]
    simp only [processAccept, hni]
    rw [if_neg (by simp; omega)]
    simp only [Bool.false_eq_true, if_false, happ]
    simp [hlim, h1]
  · intro hne
    simp only [processJetStreamMsg, hc]
    rw [if_neg (by simp)]
    rw [if_neg (by simp)]
    simp only [processBody, hdrGate, hdup]
    rw [if_neg (by simp [hstream])]
    rw [if_pos (by simp [getExpectedLastSeq, hk]; omega)]
    simp [getExpectedLastSeq, hk, hc]

/-- C3 witness: on a stream at `lseq = 1`, a publish with expected last
sequence 1 is accepted and stored at sequence 2. -/
theorem c3_expected_last_seq_gate_witness :
    (processJetStreamMsg exEnv exSeqOneState "foo" "rep"
        (some ⟨5, "", "", some 1, ""⟩) 5 0 0).ret = .ok ∧
    (processJetStreamMsg exEnv exSeqOneState "foo" "rep"
        (some ⟨5, "", "", some 1, ""⟩) 5 0 0).stored = some (exSeqOneState.lseq + 1) := by
  exact (c3_expected_last_seq_gate exEnv exSeqOneState "foo" "rep"
    ⟨5, "", "", some 1, ""⟩ 5 0 1 rfl rfl rfl rfl rfl rfl (by decide) rfl
    (by decide) (by decide) rfl).1 rfl

/-! ## C2 — sequence monotonicity and agreement with the store -/

theorem storeMsg_error_inv {st : Store} {subj mid : String} {t : Int} {e : String}
    (h : st.storeMsg subj mid t = .error e) : st.failMsg = some e := by
  unfold Store.storeMsg at h
  cases hf : st.failMsg <;> simp [hf] at h
  simp [h]

theorem storeMsg_ok_inv {st : Store} {subj mid : String} {t : Int}
    {st2 : Store} {q : Nat}
    (h : st.storeMsg subj mid t = .ok (st2, q)) :
    st2.lastSeq = st.lastSeq + 1 ∧ q = st.lastSeq + 1 := by
  unfold Store.storeMsg at h
  cases hf : st.failMsg <;> simp [hf] at h
  obtain ⟨h1, h2⟩ := h
  constructor
  · rw [← h1]
  · omega

theorem storeRawMsg_ok_inv {st : Store} {subj mid : String} {q : Nat} {t : Int}
    {st2 : Store}
    (h : st.storeRawMsg subj mid q t = .ok st2) : st2.lastSeq = q := by
  unfold Store.storeRawMsg at h
  cases hf : st.failMsg <;> simp [hf] at h
  rw [← h]

/-- A header-gate rejection changes neither `lseq` nor the store and
records nothing. -/
theorem hdrGate_some_inv {s : StreamState} {reply : String} {hdr : Option Hdr}
    {r : PResult} (h : hdrGate s reply hdr = some r) :
    r.st.lseq = s.lseq ∧ r.st.store = s.store ∧ r.stored = none := by
  unfold hdrGate at h
  cases hdr with
  | none => simp at h
  | some hd =>
      simp only at h
      split at h
      · cases h; exact ⟨rfl, rfl, rfl⟩
      · split at h
        · cases h; exact ⟨rfl, rfl, rfl⟩
        · split at h
          · cases h; exact ⟨rfl, rfl, rfl⟩
          · split at h
            · cases h; exact ⟨rfl, rfl, rfl⟩
            · cases h

/-- The `lseq` bookkeeping of the accept path: under the standing
invariant `lseq = store.lastSeq`, every outcome keeps `lseq` at the
store's last sequence and never below its entry value, and a durably
recorded sequence (skip or retained append) equals the new `lseq` and
strictly exceeds the old one. -/
theorem processAccept_lseq (env : Env) (s : StreamState)
    (subject reply mid : String) (hlen msgLen : Nat) (ts0 : Int)
    (h1 : s.lseq = s.store.lastSeq) :
    s.lseq ≤ (processAccept env s subject reply mid hlen msgLen ts0).st.lseq ∧
    (processAccept env s subject reply mid hlen msgLen ts0).st.lseq
      = (processAccept env s subject reply mid hlen msgLen ts0).st.store.lastSeq ∧
    (∀ q, (processAccept env s subject reply mid hlen msgLen ts0).stored = some q →
       q = (processAccept env s subject reply mid hlen msgLen ts0).st.lseq ∧
       s.lseq < q) := by
  generalize hr : processAccept env s subject reply mid hlen msgLen ts0 = r
  simp only [processAccept] at hr
  generalize hts : (if ts0 = 0 then env.now else ts0) = tsv at hr
  split at hr
  · -- rejected by the size cap
    subst hr
    exact ⟨Nat.le_refl _, h1, by intro q hq; cases hq⟩
  · split at hr
    · -- interest-retention skip
      subst hr
      split <;> simp_all [storeMsgId, Store.skipMsg]
    · -- append path
      split at hr
      next e heq =>
        -- store failure: rollback
        subst hr
        exact ⟨Nat.le_refl _, h1, by intro q hq; cases hq⟩
      next st2 seq heq =>
        have hps : st2.lastSeq = s.store.lastSeq + 1 ∧ seq = s.store.lastSeq + 1 := by
          split at heq
          · exact storeMsg_ok_inv heq
          · cases hraw : s.store.storeRawMsg subject mid (s.lseq + 1) tsv with
            | error e => rw [hraw] at heq; simp [Except.map] at heq
            | ok st' =>
                rw [hraw] at heq
                simp only [Except.map, Except.ok.injEq, Prod.mk.injEq] at heq
                obtain ⟨hst, hq⟩ := heq
                have hlast := storeRawMsg_ok_inv hraw
                constructor
                · rw [← hst, hlast, h1]
                · omega
        obtain ⟨hlast, hqeq⟩ := hps
        split at hr
        · -- account limits exceeded: message removed, lseq kept
          subst hr
          refine ⟨by simp, ?_, by intro q hq; cases hq⟩
          simp [Store.removeMsg, hlast, h1]
        · -- success
          subst hr
          split <;> simp_all [storeMsgId]

/-- The `lseq` bookkeeping of the full ingest body. -/
theorem processBody_lseq (env : Env) (s : StreamState) (subject reply : String)
    (hdr : Option Hdr) (msgLen : Nat) (ts0 : Int)
    (h1 : s.lseq = s.store.lastSeq) :
    s.lseq ≤ (processBody env s subject reply hdr msgLen ts0).st.lseq ∧
    (processBody env s subject reply hdr msgLen ts0).st.lseq
      = (processBody env s subject reply hdr msgLen ts0).st.store.lastSeq ∧
    (∀ q, (processBody env s subject reply hdr msgLen ts0).stored = some q →
       q = (processBody env s subject reply hdr msgLen ts0).st.lseq ∧ s.lseq < q) := by
  cases hg : hdrGate s reply hdr with
  | some r0 =>
      have hin := hdrGate_some_inv hg
      simp only [processBody, hg]
      refine ⟨by rw [hin.1], by rw [hin.1, hin.2.1, h1], ?_⟩
      intro q hq
      rw [hin.2.2] at hq
      cases hq
  | none =>
      simp only [processBody, hg]
      exact processAccept_lseq env s subject reply _ _ msgLen ts0 h1

/-- C2: under the invariants that `lseq` equals the store's last
sequence and that a store with `first_seq = 0` is brand new
(`last_seq = 0`), `processJetStreamMsg` never decreases `lseq`, always
leaves `lseq` equal to the store's last sequence, and every accepted
publish (skip or retained append) strictly increases `lseq`, with the
recorded sequence equal to the new `lseq`. -/
theorem c2_lseq_monotone_matches_store (env : Env) (s : StreamState)
    (subject reply : String) (hdr : Option Hdr) (msgLen lseqArg : Nat) (ts0 : Int)
    (h1 : s.lseq = s.store.lastSeq)
    (h2 : s.store.firstSeq = 0 → s.store.lastSeq = 0) :
    s.lseq ≤ (processJetStreamMsg env s subject reply hdr msgLen lseqArg ts0).st.lseq ∧
    (processJetStreamMsg env s subject reply hdr msgLen lseqArg ts0).st.lseq
      = (processJetStreamMsg env s subject reply hdr msgLen lseqArg ts0).st.store.lastSeq ∧
    (∀ q, (processJetStreamMsg env s subject reply hdr msgLen lseqArg ts0).stored
            = some q →
       q = (processJetStreamMsg env s subject reply hdr msgLen lseqArg ts0).st.lseq ∧
       s.lseq < q) := by
  generalize hr : processJetStreamMsg env s subject reply hdr msgLen lseqArg ts0 = r
  simp only [processJetStreamMsg] at hr
  split at hr
  · -- client gone
    subst hr
    exact ⟨Nat.le_refl _, h1, by intro q hq; cases hq⟩
  · split at hr
    · -- proposed-sequence mismatch triggered
      split at hr
      case isTrue hcl hmir =>
        -- brand-new mirror adjustment, then the body
        have hfs : s.store.firstSeq = 0 := by
          simp only [Bool.and_eq_true, decide_eq_true_eq] at hmir
          exact hmir.2
        have harg : 0 < lseqArg := by
          simp only [Bool.and_eq_true, decide_eq_true_eq] at hcl
          exact hcl.1
        have hlz : s.store.lastSeq = 0 := h2 hfs
        have hlseq0 : s.lseq = 0 := by omega
        set s2 : StreamState := { s with store := s.store.compact (lseqArg + 1), lseq := lseqArg } with hs2
        have h1' : s2.lseq = s2.store.lastSeq := by
          simp [hs2, Store.compact, hlz]
        have hb := processBody_lseq env s2 subject reply hdr msgLen ts0 h1'
        rw [hr] at hb
        obtain ⟨hb1, hb2, hb3⟩ := hb
        have hsl : s2.lseq = lseqArg := rfl
        rw [hsl] at hb1 hb3
        refine ⟨by omega, hb2, ?_⟩
        intro q hq
        obtain ⟨hq1, hq2⟩ := hb3 q hq
        exact ⟨hq1, by omega⟩
      case isFalse hcl hmir =>
        subst hr
        exact ⟨Nat.le_refl _, h1, by intro q hq; cases hq⟩
    · -- no proposed-sequence check: straight to the body
      rw [← hr]
      exact processBody_lseq env s subject reply hdr msgLen ts0 h1

/-- C2 witness: a plain publish on a fresh stream advances `lseq` from 0
to 1 and the store's last sequence along with it. -/
theorem c2_lseq_monotone_matches_store_witness :
    0 ≤ (processJetStreamMsg exEnv exInterestState "foo" "rep" (some exHdrA) 5 0 0).st.lseq ∧
    (processJetStreamMsg exEnv exInterestState "foo" "rep" (some exHdrA) 5 0 0).st.lseq
      = (processJetStreamMsg exEnv exInterestState "foo" "rep"
          (some exHdrA) 5 0 0).st.store.lastSeq := by
  have h := c2_lseq_monotone_matches_store exEnv exInterestState "foo" "rep"
    (some exHdrA) 5 0 0 rfl (fun _ => rfl)
  exact ⟨h.1, h.2.1⟩

/-! ## C6 and C7 — the dedup purge pass and the dedup invariant -/

/-- Erasing a batch of entries' ids from the map, in scan order. -/
def ddEraseAll (m : List Ddentry) (l : List Ddentry) : List Ddentry :=
  l.foldl (fun acc d => ddErase acc d.id) m

theorem mem_ddErase {m : List Ddentry} {id : String} {x : Ddentry} :
    x ∈ ddErase m id ↔ x ∈ m ∧ x.id ≠ id := by
  simp [ddErase, List.mem_filter]

theorem ddEraseAll_cons (m : List Ddentry) (d : Ddentry) (l : List Ddentry) :
    ddEraseAll m (d :: l) = ddEraseAll (ddErase m d.id) l := rfl

theorem mem_ddEraseAll {l m : List Ddentry} {x : Ddentry} :
    x ∈ ddEraseAll m l ↔ x ∈ m ∧ x.id ∉ l.map Ddentry.id := by
  induction l generalizing m with
  | nil => simp [ddEraseAll]
  | cons d rest ih =>
      rw [ddEraseAll_cons, ih]
      rw [mem_ddErase]
      simp only [List.map_cons, List.mem_cons]
      constructor
      · rintro ⟨⟨hm, hne⟩, hnot⟩
        exact ⟨hm, by rintro (h | h) <;> [exact hne h; exact hnot h]⟩
      · rintro ⟨hm, hnot⟩
        exact ⟨⟨hm, fun h => hnot (.inl h)⟩, fun h => hnot (.inr h)⟩

theorem ddEraseAll_eq_nil {m l : List Ddentry} (h : ∀ x ∈ m, x ∈ l) :
    ddEraseAll m l = [] := by
  rw [List.eq_nil_iff_forall_not_mem]
  intro x hx
  rw [mem_ddEraseAll] at hx
  exact hx.2 (List.mem_map.mpr ⟨x, h x hx.1, rfl⟩)

theorem ddPurgeScan_expired (now w : Int) :
    ∀ (l m : List Ddentry) (i : Nat), (∀ x ∈ l, w ≤ now - x.ts) →
      ddPurgeScan now w l m i = (ddEraseAll m l, none)
  | [], m, i, _ => by simp [ddPurgeScan, ddEraseAll]
  | d :: rest, m, i, h => by
      have hd := h d (List.mem_cons_self d rest)
      simp only [ddPurgeScan, if_pos hd]
      rw [ddPurgeScan_expired now w rest (ddErase m d.id) (i + 1)
        (fun x hx => h x (List.mem_cons_of_mem d hx))]
      rw [ddEraseAll_cons]

theorem ddPurgeScan_stop (now w : Int) :
    ∀ (e : List Ddentry) (d : Ddentry) (rest m : List Ddentry) (i : Nat),
      (∀ x ∈ e, w ≤ now - x.ts) → now - d.ts < w →
      ddPurgeScan now w (e ++ d :: rest) m i
        = (ddEraseAll m e, some (i + e.length, w - (now - d.ts)))
  | [], d, rest, m, i, _, hd => by
      simp [ddPurgeScan, ddEraseAll, not_le.mpr hd]
  | x :: e, d, rest, m, i, h, hd => by
      have hx := h x (List.mem_cons_self x e)
      rw [List.cons_append]
      simp only [ddPurgeScan, if_pos hx]
      rw [ddPurgeScan_stop now w e d rest (ddErase m x.id) (i + 1)
        (fun y hy => h y (List.mem_cons_of_mem x hy)) hd]
      rw [ddEraseAll_cons]
      simp only [List.length_cons, Prod.mk.injEq, Option.some.injEq, true_and]
      constructor
      · omega
      · trivial

/-- Every list splits as an expired prefix followed by either nothing or
a first live entry. -/
theorem ddExpiredSplit (now w : Int) (l : List Ddentry) :
    (∀ x ∈ l, w ≤ now - x.ts) ∨
    ∃ e d rest, l = e ++ d :: rest ∧ (∀ x ∈ e, w ≤ now - x.ts) ∧ now - d.ts < w := by
  induction l with
  | nil => exact .inl (by intro x hx; cases hx)
  | cons d rest ih =>
      by_cases hd : w ≤ now - d.ts
      · rcases ih with hall | ⟨e, d', rest', heq, hexp, hlive⟩
        · refine .inl ?_
          intro x hx
          rcases List.mem_cons.mp hx with h | h
          · exact h ▸ hd
          · exact hall x h
        · refine .inr ⟨d :: e, d', rest', by rw [heq, List.cons_append], ?_, hlive⟩
          intro x hx
          rcases List.mem_cons.mp hx with h | h
          · exact h ▸ hd
          · exact hexp x h
      · exact .inr ⟨[], d, rest, rfl,
          ⟨fun x hx => absurd hx (List.not_mem_nil x), not_le.mp hd⟩⟩

/-- C6 amended: a purge pass over a fully expired window (at least
`dedup_window` of quiescence) empties `ddmap` and cancels the timer —
while leaving `ddarr` and `ddindex` untouched (the array is only
compacted when the scan stops at a live entry); and a pass that stops at
a live entry deletes exactly the expired prefix from the map, advances
`ddindex` past it (compacting `ddarr` to a fresh vector and resetting
`ddindex` to 0 when the capacity exceeds three times the live count),
and re-arms the timer for the live entry's remaining TTL clamped below
by 50 ms whenever the map is still non-empty, cancelling it otherwise. -/
theorem c6_purge_pass_behavior (now : Int) (s : StreamState) :
    ((∀ d ∈ s.ddarr.drop s.ddindex, s.cfg.duplicates ≤ now - d.ts) →
     (∀ d ∈ s.ddmap, d ∈ s.ddarr.drop s.ddindex) →
       (purgeMsgIds now s).ddmap = [] ∧ (purgeMsgIds now s).ddtmr = none ∧
       (purgeMsgIds now s).ddarr = s.ddarr ∧
       (purgeMsgIds now s).ddindex = s.ddindex) ∧
    (∀ e d rest, s.ddarr.drop s.ddindex = e ++ d :: rest →
      (∀ x ∈ e, s.cfg.duplicates ≤ now - x.ts) →
      now - d.ts < s.cfg.duplicates →
        (purgeMsgIds now s).ddmap = ddEraseAll s.ddmap e ∧
        (3 * (s.ddarr.length - (s.ddindex + e.length)) < s.ddcap →
           (purgeMsgIds now s).ddarr = s.ddarr.drop (s.ddindex + e.length) ∧
           (purgeMsgIds now s).ddindex = 0 ∧
           (purgeMsgIds now s).ddcap
             = (s.ddarr.drop (s.ddindex + e.length)).length) ∧
        (¬ 3 * (s.ddarr.length - (s.ddindex + e.length)) < s.ddcap →
           (purgeMsgIds now s).ddarr = s.ddarr ∧
           (purgeMsgIds now s).ddindex = s.ddindex + e.length ∧
           (purgeMsgIds now s).ddcap = s.ddcap) ∧
        (purgeMsgIds now s).ddtmr
          = (if 0 < (ddEraseAll s.ddmap e).length then
               some (if s.cfg.duplicates - (now - d.ts) < minFire then minFire
                     else s.cfg.duplicates - (now - d.ts))
             else none)) := by
  constructor
  · intro hexp hinv
    have hscan := ddPurgeScan_expired now s.cfg.duplicates
      (s.ddarr.drop s.ddindex) s.ddmap 0 hexp
    have hmap : ddEraseAll s.ddmap (s.ddarr.drop s.ddindex) = [] :=
      ddEraseAll_eq_nil hinv
    simp [purgeMsgIds, hscan, hmap]
  · intro e d rest hsplit hexp hlive
    have hscan := ddPurgeScan_stop now s.cfg.duplicates e d rest s.ddmap 0 hexp hlive
    rw [Nat.zero_add] at hscan
    simp only [purgeMsgIds, hsplit, hscan]
    by_cases hcap : 3 * (s.ddarr.length - (s.ddindex + e.length)) < s.ddcap
    · simp only [if_pos hcap]
      exact ⟨by simp, fun _ => by simp, fun hn => absurd hcap hn, by simp⟩
    · simp only [if_neg hcap]
      exact ⟨by simp, fun hp => absurd hp hcap, fun _ => by simp, by simp⟩

/-- C6 witness: the quiescent part of the amended statement at the
concrete stale-dedup state. -/
theorem c6_purge_pass_behavior_witness :
    (purgeMsgIds 1000 exStaleDedupState).ddmap = [] ∧
    (purgeMsgIds 1000 exStaleDedupState).ddtmr = none ∧
    (purgeMsgIds 1000 exStaleDedupState).ddarr = exStaleDedupState.ddarr ∧
    (purgeMsgIds 1000 exStaleDedupState).ddindex = exStaleDedupState.ddindex := by
  exact (c6_purge_pass_behavior 1000 exStaleDedupState).1
    (by decide) (by decide)

/-- The dedup-structure invariant of the spec: every entry of `ddmap`
also sits in `ddarr` at an index at or past `ddindex`, and `ddarr` is
ordered by insertion time. -/
def DdInv (s : StreamState) : Prop :=
  s.ddindex ≤ s.ddarr.length ∧
  (∀ d ∈ s.ddmap, d ∈ s.ddarr.drop s.ddindex) ∧
  s.ddarr.Pairwise (fun a b => a.ts ≤ b.ts)

theorem DdInv_storeMsgId {s : StreamState} {d : Ddentry} (hI : DdInv s)
    (hts : ∀ x ∈ s.ddarr, x.ts ≤ d.ts) : DdInv (storeMsgId s d) := by
  obtain ⟨hidx, hmem, hord⟩ := hI
  refine ⟨?_, ?_, ?_⟩
  · simp only [storeMsgId, List.length_append, List.length_cons]
    omega
  · intro x hx
    simp only [storeMsgId, ddInsert, List.mem_cons] at hx
    simp only [storeMsgId]
    rw [List.drop_append_of_le_length hidx]
    rcases hx with hx | hx
    · subst hx
      exact List.mem_append_right _ (List.mem_singleton.mpr rfl)
    · exact List.mem_append_left _ (hmem x (List.mem_filter.mp hx).1)
  · simp only [storeMsgId]
    rw [List.pairwise_append]
    refine ⟨hord, List.pairwise_singleton _ _, ?_⟩
    intro a ha b hb
    rw [List.mem_singleton] at hb
    subst hb
    exact hts a ha

theorem DdInv_purgeMsgIds (now : Int) {s : StreamState} (hI : DdInv s) :
    DdInv (purgeMsgIds now s) := by
  obtain ⟨hidx, hmem, hord⟩ := hI
  rcases ddExpiredSplit now s.cfg.duplicates (s.ddarr.drop s.ddindex) with
    hall | ⟨e, d, rest, hsplit, hexp, hlive⟩
  · have hscan := ddPurgeScan_expired now s.cfg.duplicates
      (s.ddarr.drop s.ddindex) s.ddmap 0 hall
    simp only [purgeMsgIds, hscan]
    refine ⟨hidx, ?_, hord⟩
    intro x hx
    exact hmem x (mem_ddEraseAll.mp hx).1
  · have hscan := ddPurgeScan_stop now s.cfg.duplicates e d rest s.ddmap 0 hexp hlive
    rw [Nat.zero_add] at hscan
    have hlen : s.ddindex + e.length ≤ s.ddarr.length := by
      have hc := congrArg List.length hsplit
      simp only [List.length_drop, List.length_append, List.length_cons] at hc
      omega
    have hdrop : s.ddarr.drop (s.ddindex + e.length) = d :: rest := by
      calc s.ddarr.drop (s.ddindex + e.length)
          = (s.ddarr.drop s.ddindex).drop e.length := by
            rw [List.drop_drop, Nat.add_comm s.ddindex e.length]
        _ = d :: rest := by rw [hsplit]; exact List.drop_left e (d :: rest)
    have hsub : ∀ x ∈ ddEraseAll s.ddmap e, x ∈ d :: rest := by
      intro x hx
      obtain ⟨hxm, hxid⟩ := mem_ddEraseAll.mp hx
      have hxarr := hmem x hxm
      rw [hsplit] at hxarr
      rcases List.mem_append.mp hxarr with he | hrest
      · exact absurd (List.mem_map.mpr ⟨x, he, rfl⟩) hxid
      · exact hrest
    simp only [purgeMsgIds, hsplit, hscan]
    by_cases hcap : 3 * (s.ddarr.length - (s.ddindex + e.length)) < s.ddcap
    · simp only [if_pos hcap]
      refine ⟨by simp, ?_, hord.drop⟩
      intro x hx
      simp only [List.drop_zero]
      rw [hdrop]
      exact hsub x hx
    · simp only [if_neg hcap]
      refine ⟨hlen, ?_, hord⟩
      intro x hx
      rw [hdrop]
      exact hsub x hx

theorem rebuildStep_ddarr (st : Store) (last : Nat) (s : StreamState) (q : Nat) :
    ((rebuildStep st last s q).ddarr = s.ddarr ∧
     (rebuildStep st last s q).ddindex = s.ddindex ∧
     (rebuildStep st last s q).ddmap = s.ddmap) ∨
    (∃ mg, st.loadMsg q = some mg ∧ mg.hdrMsgId ≠ "" ∧
       rebuildStep st last s q
         = (if q = last then
              { storeMsgId s ⟨mg.hdrMsgId, q, mg.ts⟩ with lmsgId := mg.hdrMsgId }
            else storeMsgId s ⟨mg.hdrMsgId, q, mg.ts⟩)) := by
  cases hld : st.loadMsg q with
  | none =>
      left
      refine ⟨?_, ?_, ?_⟩ <;> simp [rebuildStep, hld, apply_ite]
  | some mg =>
      by_cases hmid : mg.hdrMsgId = ""
      · left
        refine ⟨?_, ?_, ?_⟩ <;> simp [rebuildStep, hld, hmid, apply_ite]
      · right
        refine ⟨mg, rfl, hmid, ?_⟩
        simp only [rebuildStep, hld, ne_eq, hmid, not_false_eq_true, if_true]

theorem DdInv_rebuildFold (st : Store) (last : Nat) :
    ∀ (seqs : List Nat) (s : StreamState),
      DdInv s →
      (∀ q ∈ seqs, ∀ x ∈ s.ddarr, ∀ mg, st.loadMsg q = some mg → x.ts ≤ mg.ts) →
      List.Pairwise (fun q q' => ∀ mg mg', st.loadMsg q = some mg →
        st.loadMsg q' = some mg' → mg.ts ≤ mg'.ts) seqs →
      DdInv (seqs.foldl (rebuildStep st last) s)
  | [], s, hI, _, _ => hI
  | q :: rest, s, hI, hup, hpw => by
      rw [List.foldl_cons]
      obtain ⟨hhead, htail⟩ := List.pairwise_cons.mp hpw
      apply DdInv_rebuildFold st last rest
      · rcases rebuildStep_ddarr st last s q with ⟨ha, hi, hm⟩ | ⟨mg, hld, hmid, heq⟩
        · exact ⟨ha ▸ hi ▸ hI.1, fun x hx => ha ▸ hi ▸ hI.2.1 x (hm ▸ hx), ha ▸ hI.2.2⟩
        · have hnew : DdInv (storeMsgId s ⟨mg.hdrMsgId, q, mg.ts⟩) :=
            DdInv_storeMsgId hI
              (fun x hx => hup q (List.mem_cons_self q rest) x hx mg hld)
          rw [heq]
          split
          · exact ⟨hnew.1, hnew.2.1, hnew.2.2⟩
          · exact hnew
      · intro q' hq' x hx mg' hld'
        rcases rebuildStep_ddarr st last s q with ⟨ha, -, -⟩ | ⟨mg, hld, hmid, heq⟩
        · exact hup q' (List.mem_cons_of_mem q hq') x (ha ▸ hx) mg' hld'
        · have hx' : x ∈ (storeMsgId s ⟨mg.hdrMsgId, q, mg.ts⟩).ddarr := by
            rw [heq] at hx
            revert hx
            split <;> exact fun hx => hx
          simp only [storeMsgId, List.mem_append, List.mem_singleton] at hx'
          rcases hx' with hx' | hx'
          · exact hup q' (List.mem_cons_of_mem q hq') x hx' mg' hld'
          · subst hx'
            exact hhead q' hq' mg mg' hld hld'
      · exact htail

theorem DdInv_rebuildDedupe (now : Int) (s : StreamState)
    (hI : DdInv s) (hempty : s.ddarr = [])
    (hmono : ∀ m1 ∈ s.store.msgs, ∀ m2 ∈ s.store.msgs,
       m1.seq ≤ m2.seq → m1.ts ≤ m2.ts) :
    DdInv (rebuildDedupe now s) := by
  unfold rebuildDedupe
  dsimp only
  split
  · exact ⟨hI.1, hI.2.1, hI.2.2⟩
  · apply DdInv_rebuildFold
    · exact ⟨hI.1, hI.2.1, hI.2.2⟩
    · intro q hq x hx
      rw [hempty] at hx
      cases hx
    · have hlt := List.pairwise_lt_range' (s.store.getSeqFromTime
        (now - s.cfg.duplicates)) (s.store.lastSeq + 1
          - s.store.getSeqFromTime (now - s.cfg.duplicates))
      refine hlt.imp ?_
      intro q q' hqq mg mg' hld hld'
      have hmg : mg ∈ s.store.msgs := List.mem_of_find?_eq_some hld
      have hmg' : mg' ∈ s.store.msgs := List.mem_of_find?_eq_some hld'
      have hq : mg.seq = q := by
        have := List.find?_some hld
        simpa using this
      have hq' : mg'.seq = q' := by
        have := List.find?_some hld'
        simpa using this
      exact hmono mg hmg mg' hmg' (by omega)

/-- C7: every dedup-structure operation preserves the invariant that
each `ddmap` entry is present in `ddarr` at an index ≥ `ddindex` and
that `ddarr` is ordered by insertion time: `storeMsgId` (given the
wall-clock monotonicity of the inserted timestamp), `purgeMsgIds` (both
the pure purge and the compaction), the dedup-clearing part of `purge`,
and `rebuildDedupe` on a recovery state whose store timestamps are
monotone in the sequence. -/
theorem c7_dedup_invariant_preserved (s : StreamState) :
    (∀ d : Ddentry, DdInv s → (∀ x ∈ s.ddarr, x.ts ≤ d.ts) →
       DdInv (storeMsgId s d)) ∧
    (∀ now : Int, DdInv s → DdInv (purgeMsgIds now s)) ∧
    (DdInv s → DdInv (purgeDedup s)) ∧
    (∀ now : Int, DdInv s → s.ddarr = [] →
       (∀ m1 ∈ s.store.msgs, ∀ m2 ∈ s.store.msgs,
          m1.seq ≤ m2.seq → m1.ts ≤ m2.ts) →
       DdInv (rebuildDedupe now s)) :=
  ⟨fun _ hI hts => DdInv_storeMsgId hI hts,
   fun now hI => DdInv_purgeMsgIds now hI,
   fun hI => ⟨hI.1, fun x hx => absurd hx (List.not_mem_nil x), hI.2.2⟩,
   fun now hI he hm => DdInv_rebuildDedupe now s hI he hm⟩

/-- C7 witness: inserting a first entry into the fresh stream keeps the
invariant. -/
theorem c7_dedup_invariant_preserved_witness :
    DdInv (storeMsgId exInterestState ⟨"A", 1, 5⟩) :=
  (c7_dedup_invariant_preserved exInterestState).1 ⟨"A", 1, 5⟩
    (by refine ⟨by decide, ?_, by decide⟩; intro d hd; cases hd)
    (by intro x hx; cases hx)

end NatsStream
